import Mathlib

/-!
Verification of the governance-action orchestration core.

The Go sources are shallowly embedded: environment lookups become a pure
function `String → String` (Go's `os.Getenv` returns the empty string for
unset variables), the filesystem used for snippet loading becomes a pure
function `String → Option (List String)` (`none` models a failed `os.Open`),
and side effects of `processResults` (file opens, report printing, CI output
emission) are collected in an explicit record.
-/

namespace GovernanceAction

/-- Embeds `integrations.LintLocation`: a position in the source file.
Go `int` fields are embedded as `Int`. -/
structure LintLocation where
  Line : Int
  Character : Int
deriving DecidableEq, Repr

/-- Embeds `integrations.LintRange`: the location of an issue. -/
structure LintRange where
  Start : LintLocation
  End : LintLocation
deriving DecidableEq, Repr

/-- Embeds `integrations.APIReference`. -/
structure APIReference where
  ID : String
  Name : String
deriving DecidableEq, Repr

/-- Embeds `integrations.RuleReference`. -/
structure RuleReference where
  Name : String
deriving DecidableEq, Repr

/-- Embeds `integrations.LintResult`: one governance analysis finding. -/
structure LintResult where
  Code : String
  Path : List String
  Message : String
  Severity : Int
  Range : LintRange
  Source : String
  API : APIReference
  Rule : RuleReference
deriving DecidableEq, Repr

/-- The process environment: `os.Getenv`, which yields `""` for unset
variables. -/
def Env := String → String

/-- Embeds `core.Configuration`. -/
structure Configuration where
  GovernanceService : String
  GovernanceAuth : String
  RuleID : String
  APIPath : String
  Mocked : String
deriving DecidableEq, Repr

/-- Embeds `core.getConfiguration`: builds the configuration from the
environment, with per-field fallback chains exactly as in the source
(initial `INPUT_`-prefixed reads, then plain-name fallbacks, then the
GitLab-specific fallbacks; the `Mocked` field has no GitLab fallback).
The Go function can never return a non-nil error, so the embedding returns
the configuration directly. -/
def getConfiguration (env : Env) : Configuration :=
  let config : Configuration :=
    { GovernanceService := env "INPUT_GOVERNANCE_SERVICE"
      GovernanceAuth := env "INPUT_GOVERNANCE_AUTH"
      RuleID := env "INPUT_RULE_ID"
      APIPath := env "INPUT_API_PATH"
      Mocked := env "INPUT_MOCKED" }
  let config :=
    { config with GovernanceService :=
        if config.GovernanceService = "" then env "GOVERNANCE_SERVICE"
        else config.GovernanceService }
  let config :=
    { config with GovernanceAuth :=
        if config.GovernanceAuth = "" then env "GOVERNANCE_AUTH"
        else config.GovernanceAuth }
  let config :=
    { config with RuleID :=
        if config.RuleID = "" then env "RULE_ID" else config.RuleID }
  let config :=
    { config with APIPath :=
        if config.APIPath = "" then env "API_PATH" else config.APIPath }
  let config :=
    { config with Mocked :=
        if config.Mocked = "" then env "MOCKED" else config.Mocked }
  let config :=
    { config with GovernanceService :=
        if config.GovernanceService = "" then env "GOVERNANCE_API_URL"
        else config.GovernanceService }
  let config :=
    { config with GovernanceAuth :=
        if config.GovernanceAuth = "" then env "GOVERNANCE_API_TOKEN"
        else config.GovernanceAuth }
  let config :=
    { config with RuleID :=
        if config.RuleID = "" then env "GOVERNANCE_RULE_ID" else config.RuleID }
  let config :=
    { config with APIPath :=
        if config.APIPath = "" then env "OAS_FILE_PATH" else config.APIPath }
  config

/-- Embeds `Configuration.Validate`: `some msg` models a non-nil error with
message `msg`, `none` models a nil error. -/
def Configuration.Validate (c : Configuration) : Option String :=
  if c.Mocked ≠ "" then
    if c.Mocked ≠ "success" ∧ c.Mocked ≠ "fail" ∧ c.Mocked ≠ "warning" then
      some "mocked must be one of: success, fail, warning"
    else if c.RuleID = "" then some "rule_id is required"
    else if c.APIPath = "" then some "api_path is required"
    else none
  else
    if c.GovernanceService = "" then some "governance_service is required"
    else if c.GovernanceAuth = "" then some "governance_auth is required"
    else if c.RuleID = "" then some "rule_id is required"
    else if c.APIPath = "" then some "api_path is required"
    else none

/-- Embeds `core.generateMockResults`: predefined governance analysis
results for the three mocked scenarios (Go's `switch` on the string is an
if-chain on string equality). -/
def generateMockResults (mockedType : String) (ruleID : String) :
    List LintResult :=
  if mockedType = "success" then []
  else if mockedType = "warning" then
    [ { Code := "mock-warning-001"
        Path := ["paths", "/test", "get", "responses"]
        Message := "Mock warning: Consider adding rate limiting headers"
        Severity := 1
        Range := { Start := { Line := 10, Character := 5 }
                   End := { Line := 10, Character := 15 } }
        Source := "mock-source"
        API := { ID := "mock-api-id", Name := "Mock API" }
        Rule := { Name := ruleID } },
      { Code := "mock-warning-002"
        Path := ["paths", "/test", "get", "security"]
        Message := "Mock warning: Consider adding authentication"
        Severity := 1
        Range := { Start := { Line := 8, Character := 3 }
                   End := { Line := 8, Character := 12 } }
        Source := "mock-source"
        API := { ID := "mock-api-id", Name := "Mock API" }
        Rule := { Name := ruleID } } ]
  else if mockedType = "fail" then
    [ { Code := "mock-error-001"
        Path := ["paths", "/test", "get", "responses"]
        Message := "Mock error: Missing required 401 response code"
        Severity := 0
        Range := { Start := { Line := 10, Character := 5 }
                   End := { Line := 10, Character := 15 } }
        Source := "mock-source"
        API := { ID := "mock-api-id", Name := "Mock API" }
        Rule := { Name := ruleID } },
      { Code := "mock-error-002"
        Path := ["paths", "/test", "get", "responses", "200"]
        Message := "Mock error: Missing rate limiting headers in 200 response"
        Severity := 0
        Range := { Start := { Line := 12, Character := 7 }
                   End := { Line := 12, Character := 10 } }
        Source := "mock-source"
        API := { ID := "mock-api-id", Name := "Mock API" }
        Rule := { Name := ruleID } },
      { Code := "mock-warning-003"
        Path := ["paths", "/test", "get", "security"]
        Message := "Mock warning: Consider adding authentication"
        Severity := 1
        Range := { Start := { Line := 8, Character := 3 }
                   End := { Line := 8, Character := 12 } }
        Source := "mock-source"
        API := { ID := "mock-api-id", Name := "Mock API" }
        Rule := { Name := ruleID } } ]
  else []

/-- The filesystem seen by snippet loading: `fs path = some lines` models a
successful `os.Open` followed by scanning all lines; `none` models a failed
open (Go then proceeds with no lines). -/
def FileSystem := String → Option (List String)

/-- Embeds `core.setGitHubOutput`: the append it performs, as a
`(file, line)` pair; no append when `GITHUB_OUTPUT` is unset (write errors
are swallowed, which the `FileSystem`-free embedding does not model). -/
def setGitHubOutput (env : Env) (name value : String) :
    List (String × String) :=
  if env "GITHUB_OUTPUT" ≠ "" then
    [(env "GITHUB_OUTPUT", name ++ "=" ++ value)]
  else []

/-- Embeds `core.setGitLabOutput`: returns the `(file, line)` append and the
`(name, value)` process-environment assignment it performs. -/
def setGitLabOutput (env : Env) (name value : String) :
    (String × String) × (String × String) :=
  let outputFile :=
    if env "GITLAB_OUTPUT_FILE" = "" then "governance_output.env"
    else env "GITLAB_OUTPUT_FILE"
  ((outputFile, "export " ++ name ++ "=" ++ value), (name, value))

/-- The `%4d` conversion of Go's `fmt`: the decimal rendering of `n`,
right-aligned in a field of minimum width 4 by padding with spaces. -/
def pad4 (n : Nat) : String :=
  let s := toString n
  String.mk (List.replicate (4 - s.length) ' ') ++ s

/-- The severity classification of the report loop in `processResults`:
`(label, icon)` for a severity code, defaulting to INFO. -/
def severityDisplay (sev : Int) : String × String :=
  if sev = 0 then ("ERROR", "❌")
  else if sev = 1 then ("WARNING", "⚠️")
  else ("INFO", "ℹ️")

/-- The document path `processResults` resolves for snippet loading:
`INPUT_API_PATH`, falling back to `API_PATH`. -/
def snippetPath (env : Env) : String :=
  let apiPath := env "INPUT_API_PATH"
  if apiPath = "" then env "API_PATH" else apiPath

/-- The lines `processResults` loads for snippet printing: empty when the
resolved path is empty or the open fails. -/
def loadOASLines (env : Env) (fs : FileSystem) : List String :=
  let apiPath := snippetPath env
  if apiPath ≠ "" then
    match fs apiPath with
    | some lines => lines
    | none => []
  else []

/-- The paths `processResults` attempts to open (at most one). -/
def openedForSnippets (env : Env) : List String :=
  let apiPath := snippetPath env
  if apiPath ≠ "" then [apiPath] else []

/-- The snippet block the report loop prints for one finding: the delimited
block with one line per printed source line, or `[]` when the guard
`len(oasLines) > 0 && start.Line > 0 && end.Line <= len(oasLines)` fails.
The inner loop runs `i` from `start.Line - 1` while
`i < end.Line && i < len(oasLines)` and prints `"    %4d | %s"` of
`i+1` and `oasLines[i]`. -/
def snippetBlock (oasLines : List String) (result : LintResult) :
    List String :=
  if 0 < oasLines.length ∧ 0 < result.Range.Start.Line ∧
      result.Range.End.Line ≤ (oasLines.length : Int) then
    "    --- OAS snippet ---" ::
      (List.range' (result.Range.Start.Line - 1).toNat
          (min result.Range.End.Line.toNat oasLines.length -
            (result.Range.Start.Line - 1).toNat)).map
        (fun i => "    " ++ pad4 (i + 1) ++ " | " ++ oasLines.getD i "") ++
      ["    -------------------"]
  else []

/-- The lines the report loop prints for one finding: the three-line header
(`Printf` with embedded newlines) followed by the snippet block. -/
def renderFinding (oasLines : List String) (result : LintResult) :
    List String :=
  let (sev, icon) := severityDisplay result.Severity
  let path := String.intercalate "." result.Path
  (icon ++ " [" ++ sev ++ "] [" ++ path ++ "] " ++ result.Rule.Name) ::
    ("    " ++ result.Message) ::
    ("    Location: line " ++ toString result.Range.Start.Line ++ ", char " ++
      toString result.Range.Start.Character ++ " - line " ++
      toString result.Range.End.Line ++ ", char " ++
      toString result.Range.End.Character) ::
    snippetBlock oasLines result

/-- One step of the counter updates of the report loop: `Severity = 0`
increments the error counter, `Severity = 1` the warning counter. -/
def tally (acc : Nat × Nat) (result : LintResult) : Nat × Nat :=
  if result.Severity = 0 then (acc.1 + 1, acc.2)
  else if result.Severity = 1 then (acc.1, acc.2 + 1)
  else acc

/-- The opening banner `processResults` prints: a leading newline, sixteen
equals signs, the title, sixteen equals signs. -/
def reportHeader : String :=
  "\n" ++ String.mk (List.replicate 16 '=') ++
    " Governance Analysis Report " ++ String.mk (List.replicate 16 '=')

/-- The closing banner `processResults` prints: fifty-nine equals signs and
a trailing newline. -/
def reportFooter : String :=
  String.mk (List.replicate 59 '=') ++ "\n"

/-- Everything observable about one `processResults` call. -/
structure ProcessOutcome where
  errorCount : Nat
  warningCount : Nat
  totalCount : Nat
  openedPaths : List String
  report : List String
  ghAppends : List (String × String)
  glAppends : List (String × String)
  glEnvSets : List (String × String)
  error : Option String
deriving DecidableEq, Repr

/-- Embeds `core.processResults`. An empty result list returns success
immediately (only a log line, no report, no file access, no output
emission). Otherwise: load the document lines from the environment-resolved
path, print the report with per-finding snippets while counting errors and
warnings, emit CI outputs for each platform whose indicator is `"true"`,
and fail exactly when the error count is positive. -/
def processResults (results : List LintResult) (env : Env)
    (fs : FileSystem) : ProcessOutcome :=
  if results.length = 0 then
    { errorCount := 0, warningCount := 0, totalCount := 0
      openedPaths := [], report := []
      ghAppends := [], glAppends := [], glEnvSets := []
      error := none }
  else
    let oasLines := loadOASLines env fs
    let counts := results.foldl tally (0, 0)
    let errorCount := counts.1
    let warningCount := counts.2
    let report :=
      reportHeader :: results.flatMap (renderFinding oasLines) ++
        [reportFooter]
    let ghAppends :=
      if env "GITHUB_ACTIONS" = "true" then
        setGitHubOutput env "error_count" (toString errorCount) ++
          setGitHubOutput env "warning_count" (toString warningCount) ++
          setGitHubOutput env "total_issues" (toString results.length)
      else []
    let glPairs :=
      if env "GITLAB_CI" = "true" then
        [setGitLabOutput env "error_count" (toString errorCount),
         setGitLabOutput env "warning_count" (toString warningCount),
         setGitLabOutput env "total_issues" (toString results.length)]
      else []
    { errorCount := errorCount
      warningCount := warningCount
      totalCount := results.length
      openedPaths := openedForSnippets env
      report := report
      ghAppends := ghAppends
      glAppends := glPairs.map Prod.fst
      glEnvSets := glPairs.map Prod.snd
      error :=
        if 0 < errorCount then
          some ("governance analysis failed with " ++ toString errorCount ++
            " errors and " ++ toString warningCount ++ " warnings")
        else none }

/-- The outcome of the one HTTP round trip in `makeAnalysisRequest`:
either `httpClient.Do` fails at the network level, or a response arrives
with a status code and a body-read outcome (`io.ReadAll` may itself fail). -/
inductive HTTPOutcome where
  | doFailure (msg : String)
  | response (statusCode : Int) (bodyResult : Except String String)
deriving Repr

/-- Embeds the response handling of
`GovernanceClient.makeAnalysisRequest`, parameterized by the HTTP outcome
and by `json.Unmarshal` into `[]LintResult` (an external library call,
embedded as a function returning the parsed findings or an error message).
The source reads the body first, then checks the status, then parses. -/
def makeAnalysisRequest (outcome : HTTPOutcome)
    (unmarshal : String → Except String (List LintResult)) :
    Except String (List LintResult) :=
  match outcome with
  | .doFailure msg => .error ("failed to make request: " ++ msg)
  | .response statusCode bodyResult =>
    match bodyResult with
    | .error msg => .error ("failed to read response body: " ++ msg)
    | .ok body =>
      if statusCode ≠ 200 then
        .error ("governance service returned status " ++ toString statusCode ++
          ": " ++ body)
      else
        match unmarshal body with
        | .error msg => .error ("failed to unmarshal response: " ++ msg)
        | .ok results => .ok results

/-- Modelled from the spec: "Resolution order per field, first non-empty
wins" — the first non-empty string in an ordered list of environment tiers
(the spec-side definition that `getConfiguration` is compared against). -/
def specFirstNonEmpty : List String → String
  | [] => ""
  | s :: rest => if s ≠ "" then s else specFirstNonEmpty rest

/-- The number of findings with severity 0 (Error). -/
def errorsIn (results : List LintResult) : Nat :=
  results.countP (fun r => r.Severity = 0)

/-- The number of findings with severity 1 (Warning). -/
def warningsIn (results : List LintResult) : Nat :=
  results.countP (fun r => r.Severity = 1)

/-- Expanding the error count over a cons cell. -/
theorem errorsIn_cons (r : LintResult) (rs : List LintResult) :
    errorsIn (r :: rs) = errorsIn rs + (if r.Severity = 0 then 1 else 0) := by
  simp [errorsIn, List.countP_cons]

/-- Expanding the warning count over a cons cell. -/
theorem warningsIn_cons (r : LintResult) (rs : List LintResult) :
    warningsIn (r :: rs) =
      warningsIn rs + (if r.Severity = 1 then 1 else 0) := by
  simp [warningsIn, List.countP_cons]

/-- The counter loop of `processResults` computes exactly the two severity
counts. -/
theorem foldl_tally (results : List LintResult) (p : Nat × Nat) :
    results.foldl tally p =
      (p.1 + errorsIn results, p.2 + warningsIn results) := by
  induction results generalizing p with
  | nil => simp [errorsIn, warningsIn]
  | cons r rs ih =>
    rw [List.foldl_cons, ih, errorsIn_cons, warningsIn_cons]
    unfold tally
    split_ifs with h0 h1 <;> simp <;> omega

/-- C1: `generateMockResults "success" ruleID` is the empty sequence;
`"warning"` yields exactly two findings, both severity 1, with codes
mock-warning-001/mock-warning-002, ranges (10,5)-(10,15) and (8,3)-(8,12),
and `rule.name = ruleID`; `"fail"` yields exactly three findings in order
mock-error-001 (severity 0, (10,5)-(10,15)), mock-error-002 (severity 0,
(12,7)-(12,10)), mock-warning-003 (severity 1, (8,3)-(8,12)), all with
`rule.name = ruleID`; and the output depends on `ruleID` only through the
`rule.name` field. -/
theorem generateMockResults_spec (ruleID : String) :
    generateMockResults "success" ruleID = [] ∧
    (generateMockResults "warning" ruleID).map
        (fun r => (r.Code, r.Severity, r.Range, r.Rule.Name)) =
      [("mock-warning-001", 1, ⟨⟨10, 5⟩, ⟨10, 15⟩⟩, ruleID),
       ("mock-warning-002", 1, ⟨⟨8, 3⟩, ⟨8, 12⟩⟩, ruleID)] ∧
    (generateMockResults "fail" ruleID).map
        (fun r => (r.Code, r.Severity, r.Range, r.Rule.Name)) =
      [("mock-error-001", 0, ⟨⟨10, 5⟩, ⟨10, 15⟩⟩, ruleID),
       ("mock-error-002", 0, ⟨⟨12, 7⟩, ⟨12, 10⟩⟩, ruleID),
       ("mock-warning-003", 1, ⟨⟨8, 3⟩, ⟨8, 12⟩⟩, ruleID)] ∧
    ∀ mockedType ruleID2,
      (generateMockResults mockedType ruleID).map
          (fun r => { r with Rule := { Name := "" } }) =
        (generateMockResults mockedType ruleID2).map
          (fun r => { r with Rule := { Name := "" } }) := by
  refine ⟨rfl, rfl, rfl, fun mockedType ruleID2 => ?_⟩
  unfold generateMockResults
  split_ifs <;> rfl

/-- C2: `processResults` fails exactly when the number of severity-0
findings is positive, with message
"governance analysis failed with N errors and M warnings" for the computed
counts, and succeeds whenever the error count is zero, regardless of the
warning count. -/
theorem processResults_failure_spec (results : List LintResult) (env : Env)
    (fs : FileSystem) :
    (processResults results env fs).error =
      if 0 < errorsIn results then
        some ("governance analysis failed with " ++
          toString (errorsIn results) ++ " errors and " ++
          toString (warningsIn results) ++ " warnings")
      else none := by
  by_cases h : results.length = 0
  · have hnil : results = [] := List.eq_nil_of_length_eq_zero h
    subst hnil
    simp [processResults, errorsIn]
  · simp [processResults, h, foldl_tally]

/-- The severity counts are jointly bounded by the number of findings. -/
theorem counts_le_length (results : List LintResult) :
    errorsIn results + warningsIn results ≤ results.length := by
  induction results with
  | nil => simp [errorsIn, warningsIn]
  | cons r rs ih =>
    simp only [errorsIn, warningsIn, List.countP_cons, List.length_cons,
      decide_eq_true_eq] at *
    split_ifs <;> omega

/-- The severity counts exhaust the findings exactly when every finding has
severity 0 or 1. -/
theorem counts_eq_length_iff (results : List LintResult) :
    errorsIn results + warningsIn results = results.length ↔
      ∀ r ∈ results, r.Severity = 0 ∨ r.Severity = 1 := by
  induction results with
  | nil => simp [errorsIn, warningsIn]
  | cons r rs ih =>
    have hle := counts_le_length rs
    rw [errorsIn_cons, warningsIn_cons, List.length_cons]
    by_cases h0 : r.Severity = 0
    · have h1 : ¬r.Severity = 1 := by rw [h0]; decide
      rw [if_pos h0, if_neg h1]
      constructor
      · intro h x hx
        rcases List.mem_cons.mp hx with rfl | hx
        · exact Or.inl h0
        · exact ih.mp (by omega) x hx
      · intro hP
        have := ih.mpr (fun x hx => hP x (List.mem_cons_of_mem r hx))
        omega
    · by_cases h1 : r.Severity = 1
      · rw [if_neg h0, if_pos h1]
        constructor
        · intro h x hx
          rcases List.mem_cons.mp hx with rfl | hx
          · exact Or.inr h1
          · exact ih.mp (by omega) x hx
        · intro hP
          have := ih.mpr (fun x hx => hP x (List.mem_cons_of_mem r hx))
          omega
      · rw [if_neg h0, if_neg h1]
        constructor
        · intro h
          exact absurd h (by omega)
        · intro hP
          rcases hP r (List.mem_cons_self r rs) with hc | hc
          · exact absurd hc h0
          · exact absurd hc h1

/-- C3: the summary computed by `processResults` counts severity-0 findings
as errors, severity-1 findings as warnings, and every finding toward the
total; hence errorCount + warningCount ≤ totalCount, with equality exactly
when every finding has severity 0 or 1. -/
theorem processResults_counts_spec (results : List LintResult) (env : Env)
    (fs : FileSystem) :
    (processResults results env fs).errorCount = errorsIn results ∧
    (processResults results env fs).warningCount = warningsIn results ∧
    (processResults results env fs).totalCount = results.length ∧
    errorsIn results + warningsIn results ≤ results.length ∧
    (errorsIn results + warningsIn results = results.length ↔
      ∀ r ∈ results, r.Severity = 0 ∨ r.Severity = 1) := by
  refine ⟨?_, ?_, ?_, counts_le_length results, counts_eq_length_iff results⟩ <;>
    by_cases h : results.length = 0
  · have hnil : results = [] := List.eq_nil_of_length_eq_zero h
    subst hnil; simp [processResults, errorsIn]
  · simp [processResults, h, foldl_tally]
  · have hnil : results = [] := List.eq_nil_of_length_eq_zero h
    subst hnil; simp [processResults, warningsIn]
  · simp [processResults, h, foldl_tally]
  · have hnil : results = [] := List.eq_nil_of_length_eq_zero h
    subst hnil; simp [processResults]
  · simp [processResults, h]

/-- C4: each configuration field resolves first-non-empty over its ordered
environment tiers — the `INPUT_`-prefixed name, then the plain canonical
name, then (for service URL, auth token, rule ID and document path, but not
for the mock flag) the legacy GitLab-specific alias. The `specFirstNonEmpty`
lists make the three scenarios of the claim (prefixed only, prefixed plus
canonical, legacy alias only) immediate, and the two-element list for
`Mocked` shows a legacy alias can never affect the mock flag. -/
theorem getConfiguration_spec (env : Env) :
    (getConfiguration env).GovernanceService =
      specFirstNonEmpty [env "INPUT_GOVERNANCE_SERVICE",
        env "GOVERNANCE_SERVICE", env "GOVERNANCE_API_URL"] ∧
    (getConfiguration env).GovernanceAuth =
      specFirstNonEmpty [env "INPUT_GOVERNANCE_AUTH",
        env "GOVERNANCE_AUTH", env "GOVERNANCE_API_TOKEN"] ∧
    (getConfiguration env).RuleID =
      specFirstNonEmpty [env "INPUT_RULE_ID",
        env "RULE_ID", env "GOVERNANCE_RULE_ID"] ∧
    (getConfiguration env).APIPath =
      specFirstNonEmpty [env "INPUT_API_PATH",
        env "API_PATH", env "OAS_FILE_PATH"] ∧
    (getConfiguration env).Mocked =
      specFirstNonEmpty [env "INPUT_MOCKED", env "MOCKED"] := by
  simp only [getConfiguration, specFirstNonEmpty]
  refine ⟨?_, ?_, ?_, ?_, ?_⟩ <;> (split_ifs <;> simp_all)

/-- C5: `Validate` (a pure function of the configuration record in this
embedding) rejects a non-empty mock scenario outside the three literals;
for an allowed mock scenario it fails exactly when `RuleID` or `APIPath` is
empty (service URL and auth token are then not required); with no mock
scenario it fails exactly when any of the four fields is empty. -/
theorem Validate_spec (c : Configuration) :
    (c.Mocked ≠ "" →
      ¬(c.Mocked = "success" ∨ c.Mocked = "fail" ∨ c.Mocked = "warning") →
      (c.Validate).isSome) ∧
    ((c.Mocked = "success" ∨ c.Mocked = "fail" ∨ c.Mocked = "warning") →
      ((c.Validate).isSome ↔ (c.RuleID = "" ∨ c.APIPath = ""))) ∧
    (c.Mocked = "" →
      ((c.Validate).isSome ↔ (c.GovernanceService = "" ∨
        c.GovernanceAuth = "" ∨ c.RuleID = "" ∨ c.APIPath = ""))) := by
  unfold Configuration.Validate
  split_ifs <;> simp_all

/-- A witness for C5 at a concrete configuration: in mock mode "success"
with a rule ID and a document path, an empty service URL and auth token are
accepted. -/
theorem Validate_spec_witness :
    (({ GovernanceService := "", GovernanceAuth := "", RuleID := "rule-1",
        APIPath := "openapi.yaml", Mocked := "success" } :
          Configuration).Validate).isSome ↔
      (("rule-1" : String) = "" ∨ ("openapi.yaml" : String) = "") :=
  (Validate_spec _).2.1 (Or.inl rfl)

/-- C6: on an empty findings sequence `processResults` succeeds immediately
with all counts zero, opens no file (for every environment, hence for every
document path), prints nothing and emits nothing. -/
theorem processResults_empty_spec (env : Env) (fs : FileSystem) :
    processResults [] env fs =
      { errorCount := 0, warningCount := 0, totalCount := 0
        openedPaths := [], report := []
        ghAppends := [], glAppends := [], glEnvSets := []
        error := none } := rfl

/-- C7: the analysis request errors on a network-level failure; errors on a
non-200 status with a message carrying the status code and the raw body;
errors on a 200 body that fails to parse as a findings array; and returns
the parsed findings, including the empty array, on a 200 body that parses. -/
theorem makeAnalysisRequest_spec
    (unmarshal : String → Except String (List LintResult)) :
    (∀ msg, makeAnalysisRequest (.doFailure msg) unmarshal =
      .error ("failed to make request: " ++ msg)) ∧
    (∀ (statusCode : Int) (body : String), statusCode ≠ 200 →
      makeAnalysisRequest (.response statusCode (.ok body)) unmarshal =
        .error ("governance service returned status " ++
          toString statusCode ++ ": " ++ body)) ∧
    (∀ body msg, unmarshal body = .error msg →
      makeAnalysisRequest (.response 200 (.ok body)) unmarshal =
        .error ("failed to unmarshal response: " ++ msg)) ∧
    (∀ body results, unmarshal body = .ok results →
      makeAnalysisRequest (.response 200 (.ok body)) unmarshal =
        .ok results) := by
  refine ⟨fun msg => rfl, fun s b hs => ?_, fun b m hm => ?_,
    fun b res hr => ?_⟩
  · simp [makeAnalysisRequest, hs]
  · simp [makeAnalysisRequest, hm]
  · simp [makeAnalysisRequest, hr]

/-- A concrete stand-in for `json.Unmarshal` accepting only the empty
findings array. -/
def unmarshalEx : String → Except String (List LintResult) :=
  fun body =>
    if body = "[]" then .ok [] else .error "invalid character"

/-- A witness for C7: a 200 response with body "[]" succeeds with zero
findings, and a 401 response errors with the status and raw body in the
message. -/
theorem makeAnalysisRequest_spec_witness :
    makeAnalysisRequest (.response 200 (.ok "[]")) unmarshalEx = .ok [] ∧
    makeAnalysisRequest (.response 401 (.ok "unauthorized")) unmarshalEx =
      .error ("governance service returned status " ++ toString (401 : Int) ++
        ": " ++ "unauthorized") :=
  ⟨(makeAnalysisRequest_spec unmarshalEx).2.2.2 "[]" [] rfl,
   (makeAnalysisRequest_spec unmarshalEx).2.1 401 "unauthorized" (by decide)⟩

/-- Re-indexing a mapped `range'`: iterating `f` over `[s, s+n)` is
iterating `f (m - 1)` over `[s+1, s+1+n)`. -/
theorem range'_map_shift (s n : Nat) (f : Nat → String) :
    (List.range' s n).map f =
      (List.range' (s + 1) n).map (fun m => f (m - 1)) := by
  induction n generalizing s with
  | zero => rfl
  | succ k ih =>
    rw [List.range'_succ s k 1, List.range'_succ (s + 1) k 1,
      List.map_cons, List.map_cons, ih]
    simp

/-- C8: the report loop prints a non-empty snippet block for a finding
exactly when lines were loaded, the range's start line is positive, and the
range's end line is at most the loaded line count; and in that case the
block consists of the delimiters around exactly the lines numbered
startLine through endLine (1-based, inclusive), each rendered as the
4-space indent, the 1-based line number right-aligned to 4 columns, then
" | " and the line. The final conjunct grounds this in `processResults`:
on a non-empty findings sequence its report is the banner, each finding's
rendering (header plus this snippet block) in order, and the footer. -/
theorem snippetBlock_spec (oasLines : List String) (result : LintResult) :
    (snippetBlock oasLines result ≠ [] ↔
      (0 < oasLines.length ∧ 0 < result.Range.Start.Line ∧
        result.Range.End.Line ≤ (oasLines.length : Int))) ∧
    (0 < oasLines.length → 0 < result.Range.Start.Line →
      result.Range.End.Line ≤ (oasLines.length : Int) →
      snippetBlock oasLines result =
        "    --- OAS snippet ---" ::
          (List.range' result.Range.Start.Line.toNat
              (result.Range.End.Line.toNat + 1 -
                result.Range.Start.Line.toNat)).map
            (fun n => "    " ++ pad4 n ++ " | " ++ oasLines.getD (n - 1) "")
          ++ ["    -------------------"]) ∧
    (∀ (results : List LintResult) (env : Env) (fs : FileSystem),
      results ≠ [] →
      (processResults results env fs).report =
        reportHeader ::
          results.flatMap (renderFinding (loadOASLines env fs)) ++
          [reportFooter]) := by
  refine ⟨?_, ?_, ?_⟩
  · unfold snippetBlock
    split_ifs with h
    · simp [h]
    · simpa using h
  · intro h1 h2 h3
    unfold snippetBlock
    rw [if_pos ⟨h1, h2, h3⟩]
    have hstart : result.Range.Start.Line.toNat =
        (result.Range.Start.Line - 1).toNat + 1 := by omega
    have hcount : min result.Range.End.Line.toNat oasLines.length -
        (result.Range.Start.Line - 1).toNat =
        result.Range.End.Line.toNat + 1 -
          ((result.Range.Start.Line - 1).toNat + 1) := by omega
    rw [hstart, hcount, range'_map_shift]
    refine congrArg _ (congrArg (· ++ _) (List.map_congr_left ?_))
    intro m hm
    have hm1 : 1 ≤ m := le_trans (Nat.le_add_left 1 _)
      (List.mem_range'_1.mp hm).1
    simp only [Nat.sub_add_cancel hm1]
  · intro results env fs hne
    have h : ¬results.length = 0 := by
      have := List.length_pos.mpr hne
      omega
    simp [processResults, h]

/-- A concrete finding whose range covers line 1 only. -/
def findingEx : LintResult :=
  { Code := "c1", Path := ["paths"], Message := "msg", Severity := 1
    Range := ⟨⟨1, 1⟩, ⟨1, 5⟩⟩, Source := "src"
    API := ⟨"id", "api"⟩, Rule := ⟨"r1"⟩ }

/-- A witness for C8: against the one-line document "openapi: 3.0.0", a
finding with start line 1 and end line 1 prints exactly that line,
annotated with the right-aligned line number. -/
theorem snippetBlock_spec_witness :
    snippetBlock ["openapi: 3.0.0"] findingEx =
      ["    --- OAS snippet ---",
       "       1 | openapi: 3.0.0",
       "    -------------------"] := by
  have h := (snippetBlock_spec ["openapi: 3.0.0"] findingEx).2.1
    (by decide) (by decide) (by decide)
  rw [h]
  rfl

/-- An environment in which only the GitHub indicators are set. -/
def envGH : Env := fun name =>
  if name = "GITHUB_ACTIONS" then "true"
  else if name = "GITHUB_OUTPUT" then "github_output.txt"
  else ""

/-- A filesystem on which every open fails. -/
def fsNone : FileSystem := fun _ => none

/-- C9 counterexample: on the EMPTY findings sequence `processResults`
returns before the emission step, so with the GitHub indicator set no
output lines are appended at all — the claim's unconditional emission of
the computed summary (0 errors, 0 warnings, 0 issues) does not happen. -/
theorem processResults_emission_counterexample :
    (processResults [] envGH fsNone).ghAppends = [] ∧
    (processResults [] envGH fsNone).ghAppends ≠
      setGitHubOutput envGH "error_count" "0" ++
        setGitHubOutput envGH "warning_count" "0" ++
        setGitHubOutput envGH "total_issues" "0" := by
  constructor
  · rfl
  · decide

/-- C9 (amended): for every NON-EMPTY findings sequence, `processResults`
performs the output emission with the computed summary through each
platform-selected channel, and the equations hold independently of the
error outcome — so the counts are emitted even on a failing run, before
the failure is returned. -/
theorem processResults_emission_spec (results : List LintResult) (env : Env)
    (fs : FileSystem) (hne : results ≠ []) :
    (processResults results env fs).ghAppends =
      (if env "GITHUB_ACTIONS" = "true" then
        setGitHubOutput env "error_count" (toString (errorsIn results)) ++
          setGitHubOutput env "warning_count"
            (toString (warningsIn results)) ++
          setGitHubOutput env "total_issues" (toString results.length)
      else []) ∧
    (processResults results env fs).glAppends =
      (if env "GITLAB_CI" = "true" then
        [(setGitLabOutput env "error_count" (toString (errorsIn results))).1,
         (setGitLabOutput env "warning_count"
           (toString (warningsIn results))).1,
         (setGitLabOutput env "total_issues" (toString results.length)).1]
      else []) ∧
    (processResults results env fs).glEnvSets =
      (if env "GITLAB_CI" = "true" then
        [("error_count", toString (errorsIn results)),
         ("warning_count", toString (warningsIn results)),
         ("total_issues", toString results.length)]
      else []) := by
  have h : ¬results.length = 0 := by
    have := List.length_pos.mpr hne
    omega
  by_cases hgl : env "GITLAB_CI" = "true" <;>
    refine ⟨?_, ?_, ?_⟩ <;>
    simp [processResults, h, foldl_tally, hgl, setGitLabOutput]

/-- A witness for C9 (amended): the "fail" mock scenario under the GitHub
indicator emits error_count=2, warning_count=1, total_issues=3 even though
the run fails. -/
theorem processResults_emission_spec_witness :
    (processResults (generateMockResults "fail" "r1") envGH fsNone).ghAppends =
      [("github_output.txt", "error_count=2"),
       ("github_output.txt", "warning_count=1"),
       ("github_output.txt", "total_issues=3")] := by
  have h := (processResults_emission_spec (generateMockResults "fail" "r1")
    envGH fsNone (by decide)).1
  rw [h]
  rfl

/-- C10 (implicit): snippet loading in `processResults` resolves the
document path only from `INPUT_API_PATH` and then `API_PATH` (the loaded
lines and the attempted open depend on no other environment variable and
not on the resolved `Configuration`, which `processResults` never
receives); when both are empty — as on a run configured solely through the
legacy `OAS_FILE_PATH` alias — no file is opened, the loaded line sequence
is empty, no snippet block is printed, and the report, counts and error
outcome are what they would be under any other filesystem. -/
theorem processResults_snippet_source_spec (results : List LintResult)
    (env : Env) (fs : FileSystem) :
    (∀ env' : Env, env "INPUT_API_PATH" = env' "INPUT_API_PATH" →
      env "API_PATH" = env' "API_PATH" →
      loadOASLines env fs = loadOASLines env' fs ∧
        openedForSnippets env = openedForSnippets env') ∧
    (env "INPUT_API_PATH" = "" → env "API_PATH" = "" →
      (processResults results env fs).openedPaths = [] ∧
      loadOASLines env fs = [] ∧
      (∀ r : LintResult, snippetBlock (loadOASLines env fs) r = []) ∧
      (∀ fs' : FileSystem,
        (processResults results env fs).report =
          (processResults results env fs').report ∧
        (processResults results env fs).errorCount =
          (processResults results env fs').errorCount ∧
        (processResults results env fs).warningCount =
          (processResults results env fs').warningCount ∧
        (processResults results env fs).error =
          (processResults results env fs').error)) := by
  constructor
  · intro env' hI hA
    constructor
    · simp [loadOASLines, snippetPath, hI, hA]
    · simp [openedForSnippets, snippetPath, hI, hA]
  · intro hI hA
    have hpath : snippetPath env = "" := by simp [snippetPath, hI, hA]
    have hload : ∀ fs' : FileSystem, loadOASLines env fs' = [] := by
      intro fs'
      simp [loadOASLines, hpath]
    have hopen : openedForSnippets env = [] := by
      simp [openedForSnippets, hpath]
    refine ⟨?_, hload fs, ?_, ?_⟩
    · by_cases h : results.length = 0 <;> simp [processResults, h, hopen]
    · intro r
      rw [hload fs]
      simp [snippetBlock]
    · intro fs'
      by_cases h : results.length = 0 <;>
        refine ⟨?_, ?_, ?_, ?_⟩ <;>
        simp [processResults, h, hload fs, hload fs']

/-- An environment carrying the document path only through the legacy
GitLab alias. -/
def envLegacy : Env := fun name =>
  if name = "OAS_FILE_PATH" then "legacy.yaml" else ""

/-- A filesystem on which only the legacy path opens. -/
def fsLegacy : FileSystem := fun path =>
  if path = "legacy.yaml" then some ["openapi: 3.0.0"] else none

/-- A witness for C10: with the document path supplied solely via
`OAS_FILE_PATH`, processing the "warning" mock findings opens no file. -/
theorem processResults_snippet_source_spec_witness :
    (processResults (generateMockResults "warning" "r1") envLegacy
      fsLegacy).openedPaths = [] :=
  ((processResults_snippet_source_spec (generateMockResults "warning" "r1")
    envLegacy fsLegacy).2 (by decide) (by decide)).1

end GovernanceAction
